import Mathlib

/-!
Shallow embedding of `src/tor/shadowtor-preload.c` (shadow-plugin-tor):
the per-thread worker vtable, the global crypto init/cleanup coordinator
(latched and reference counted), the OpenSSL locking-callback bridge, the
consensus-file side channel of `write_str_to_file`, and the thread-id
callback, together with theorems about the specified properties.
-/

namespace ShadowTorPreload

/-- Trace events recording which delegate (looked-up Tor) functions are
invoked by the interposition layer. -/
inductive DelegateCall where
  | sslGlobalInit
  | cryptoGlobalInit (useAccel : Int) (accelName accelDir : Option String)
  | cryptoGlobalCleanup
  | earlyInit
  | seedRng (n : Int)
  | initSiphashKey
  deriving DecidableEq

/-- State of one `GRWLock`: number of shared (reader) holds and whether the
exclusive (writer) hold is taken. -/
structure RWLock where
  readers : Nat
  writer : Bool
  deriving DecidableEq

/-- A fresh `GRWLock` as produced by `g_rw_lock_init` on zeroed memory. -/
def RWLock.new : RWLock := ⟨0, false⟩

/-- The `_InterposeFuncs` vtable: each field models one function pointer,
`none` standing for `NULL` (symbol not resolved).  Nullary delegate calls are
modelled by the result value they return; delegates taking arguments are
modelled as Lean functions. -/
structure InterposeFuncs where
  spawn_func : Option (Int → Int → Int)
  write_str_to_file : Option (String → String → Int → Int)
  crypto_global_init : Option (Int → Option String → Option String → Int)
  crypto_global_cleanup : Option Int
  crypto_early_init : Option Int
  crypto_seed_rng : Option (Int → Int)
  crypto_init_siphash_key : Option Int
  tor_ssl_global_init : Option Unit

/-- The symbols a `GModule` offers, in the same typed view as the vtable;
`none` means `g_module_symbol` fails for that name. -/
abbrev GModule := InterposeFuncs

/-- The per-thread `_PreloadWorker`: resolved vtable plus the
`consensusCounter` used by the consensus-file side channel.  The counter is a
zero-initialised C int (`g_new0`) that is only ever incremented, so it is
modelled as a `Nat`. -/
structure PreloadWorker where
  vtable : InterposeFuncs
  consensusCounter : Nat

/-- The `_PreloadGlobal` shared state (`shadowtorpreloadGlobalState`).
`cryptoThreadLocks = none` models the `NULL` array pointer. -/
structure PreloadGlobal where
  initialized : Bool
  sslInitializedEarly : Bool
  sslInitializedGlobal : Bool
  nTorCryptoNodes : Int
  nThreads : Int
  numCryptoThreadLocks : Int
  cryptoThreadLocks : Option (List RWLock)
  deriving DecidableEq

/-- The static initializer `{FALSE, 0, 0, 0, NULL}` (remaining fields
zero-filled). -/
def initialGlobalState : PreloadGlobal :=
  { initialized := false
    sslInitializedEarly := false
    sslInitializedGlobal := false
    nTorCryptoNodes := 0
    nThreads := 0
    numCryptoThreadLocks := 0
    cryptoThreadLocks := none }

/-- `crypto_global_init` (lines 356-374): under the primary lock, increment
`nTorCryptoNodes`; if the `sslInitializedGlobal` latch is unset, set it,
invoke `tor_ssl_global_init` if resolved, then invoke the real
`crypto_global_init` if resolved and return its result; otherwise return 0.
The third component records the delegate calls made. -/
def crypto_global_init (w : PreloadWorker) (g : PreloadGlobal)
    (useAccel : Int) (accelName accelDir : Option String) :
    Int × PreloadGlobal × List DelegateCall :=
  let g1 : PreloadGlobal := { g with nTorCryptoNodes := g.nTorCryptoNodes + 1 }
  if g1.sslInitializedGlobal = false then
    let g2 : PreloadGlobal := { g1 with sslInitializedGlobal := true }
    let sslCalls : List DelegateCall :=
      match w.vtable.tor_ssl_global_init with
      | some _ => [DelegateCall.sslGlobalInit]
      | none => []
    match w.vtable.crypto_global_init with
    | some f =>
        (f useAccel accelName accelDir, g2,
          sslCalls ++ [DelegateCall.cryptoGlobalInit useAccel accelName accelDir])
    | none => (0, g2, sslCalls)
  else
    (0, g1, [])

/-- `crypto_global_cleanup` (lines 376-388): under the primary lock,
decrement `nTorCryptoNodes`; exactly when the decremented value is 0, invoke
the real `crypto_global_cleanup` if resolved and return its result; otherwise
return 0.  The decrement is unconditional and unchecked: there is no
assertion guarding against a negative count. -/
def crypto_global_cleanup (w : PreloadWorker) (g : PreloadGlobal) :
    Int × PreloadGlobal × List DelegateCall :=
  let g1 : PreloadGlobal := { g with nTorCryptoNodes := g.nTorCryptoNodes - 1 }
  if g1.nTorCryptoNodes = 0 then
    match w.vtable.crypto_global_cleanup with
    | some r => (r, g1, [DelegateCall.cryptoGlobalCleanup])
    | none => (0, g1, [])
  else
    (0, g1, [])

/-- OpenSSL mode flag `CRYPTO_LOCK`. -/
def CRYPTO_LOCK : Nat := 1
/-- OpenSSL mode flag `CRYPTO_UNLOCK`. -/
def CRYPTO_UNLOCK : Nat := 2
/-- OpenSSL mode flag `CRYPTO_READ`. -/
def CRYPTO_READ : Nat := 4
/-- OpenSSL mode flag `CRYPTO_WRITE`. -/
def CRYPTO_WRITE : Nat := 8

/-- `g_rw_lock_reader_lock`: take one more shared hold. -/
def readerLock (l : RWLock) : RWLock := { l with readers := l.readers + 1 }
/-- `g_rw_lock_writer_lock`: take the exclusive hold. -/
def writerLock (l : RWLock) : RWLock := { l with writer := true }
/-- `g_rw_lock_reader_unlock`: release one shared hold. -/
def readerUnlock (l : RWLock) : RWLock := { l with readers := l.readers - 1 }
/-- `g_rw_lock_writer_unlock`: release the exclusive hold. -/
def writerUnlock (l : RWLock) : RWLock := { l with writer := false }

/-- Outcome of one invocation of the locking callback: a failed `assert`
(fatal abort), an out-of-bounds array access (undefined behaviour, reached
without any assertion firing), or a normal return with the updated lock
array. -/
inductive LockResult where
  | assertFail
  | oob
  | ok (locks : List RWLock)
  deriving DecidableEq

/-- Application of a lock operation to entry `n` of the array: the C code
computes `&array[n]` and calls the GLib lock function on it, so an index
outside the array is an out-of-bounds access, not an assertion failure. -/
def applyLockOp (locks : List RWLock) (n : Int) (f : RWLock → RWLock) : LockResult :=
  if 0 ≤ n ∧ n.toNat < locks.length then
    LockResult.ok (locks.set n.toNat (f (locks.getD n.toNat RWLock.new)))
  else
    LockResult.oob

/-- `_shadowtorpreload_cryptoLockingFunc` (lines 403-422):
`assert(initialized)`; `lock = &cryptoThreadLocks[n]`; `assert(lock)` (which
only checks that the computed pointer is non-null, i.e. that the array
pointer itself is non-null — it does not bound-check `n`); then dispatch on
the mode bits, performing the corresponding reader/writer operation.  Modes
matching neither branch return with the array unchanged. -/
def cryptoLockingFunc (g : PreloadGlobal) (mode : Nat) (n : Int) : LockResult :=
  if g.initialized = false then LockResult.assertFail
  else
    match g.cryptoThreadLocks with
    | none => LockResult.assertFail
    | some locks =>
        if mode &&& CRYPTO_LOCK ≠ 0 then
          if mode &&& CRYPTO_READ ≠ 0 then applyLockOp locks n readerLock
          else if mode &&& CRYPTO_WRITE ≠ 0 then applyLockOp locks n writerLock
          else LockResult.ok locks
        else if mode &&& CRYPTO_UNLOCK ≠ 0 then
          if mode &&& CRYPTO_READ ≠ 0 then applyLockOp locks n readerUnlock
          else if mode &&& CRYPTO_WRITE ≠ 0 then applyLockOp locks n writerUnlock
          else LockResult.ok locks
        else LockResult.ok locks

/-- A global state holding an initialised two-entry lock array. -/
def twoLockState : PreloadGlobal :=
  { initialGlobalState with
    initialized := true
    numCryptoThreadLocks := 2
    cryptoThreadLocks := some [RWLock.new, RWLock.new] }


/-- `crypto_early_init` (lines 334-354): under the secondary lock, if the
`sslInitializedEarly` latch is unset, set it and invoke the real
`crypto_early_init` if resolved, returning its result (0 if absent).  If the
latch is already set and the `crypto_early_init` symbol resolved, the code
unconditionally calls `crypto_seed_rng(1)` and then `crypto_init_siphash_key`
through their (possibly `NULL`) pointers — modelled as `none` (a crash) when
either is absent — and returns -1 if either call is negative, else 0.  If the
`crypto_early_init` symbol is absent the reseed branch does nothing. -/
def crypto_early_init (w : PreloadWorker) (g : PreloadGlobal) :
    Option (Int × PreloadGlobal × List DelegateCall) :=
  if g.sslInitializedEarly = false then
    let g1 : PreloadGlobal := { g with sslInitializedEarly := true }
    match w.vtable.crypto_early_init with
    | some r => some (r, g1, [DelegateCall.earlyInit])
    | none => some (0, g1, [])
  else
    match w.vtable.crypto_early_init with
    | none => some (0, g, [])
    | some _ =>
        match w.vtable.crypto_seed_rng with
        | none => none
        | some sr =>
            match w.vtable.crypto_init_siphash_key with
            | none => none
            | some sk =>
                some (if sr 1 < 0 ∨ sk < 0 then -1 else 0, g,
                  [DelegateCall.seedRng 1, DelegateCall.initSiphashKey])

/-- A fully resolved vtable with concrete delegate behaviours, used for
concrete evaluations. -/
def vtableFull : InterposeFuncs :=
  { spawn_func := some (fun _ _ => 0)
    write_str_to_file := some (fun _ _ _ => 5)
    crypto_global_init := some (fun _ _ _ => 7)
    crypto_global_cleanup := some 9
    crypto_early_init := some 0
    crypto_seed_rng := some (fun _ => 0)
    crypto_init_siphash_key := some 0
    tor_ssl_global_init := some () }

/-- A bound worker holding `vtableFull`, counter 3. -/
def workerFull : PreloadWorker := { vtable := vtableFull, consensusCounter := 3 }

/-- A vtable whose `crypto_early_init` symbol is absent while
`crypto_seed_rng` is present and reports failure, `crypto_init_siphash_key`
present and succeeding. -/
def vtableNoEarly : InterposeFuncs :=
  { vtableFull with
    crypto_early_init := none
    crypto_seed_rng := some (fun _ => -1) }

/-- Worker holding `vtableNoEarly`. -/
def workerNoEarly : PreloadWorker := { vtable := vtableNoEarly, consensusCounter := 0 }

/-- The global state with the early-init latch already set. -/
def latchedEarlyState : PreloadGlobal :=
  { initialGlobalState with sslInitializedEarly := true }

/-- Allocation events of the lock-array lifecycle: `alloc n` records
`g_new0(GRWLock, n)` in `_shadowtorpreload_cryptoSetup`, `free` records
`g_free` in `_shadowtorpreload_cryptoTeardown`. -/
inductive MemEvent where
  | alloc (n : Int)
  | free
  deriving DecidableEq

/-- `_shadowtorpreload_cryptoSetup` (lines 429-446): under the primary lock,
if not yet `initialized`, store `numLocks`, allocate the lock array
(`numLocks` fresh locks) and set `initialized`; then increment `nThreads`
unconditionally. -/
def cryptoSetup (g : PreloadGlobal) (numLocks : Int) : PreloadGlobal × List MemEvent :=
  if g.initialized = false then
    ({ g with
        numCryptoThreadLocks := numLocks
        cryptoThreadLocks := some (List.replicate numLocks.toNat RWLock.new)
        initialized := true
        nThreads := g.nThreads + 1 }, [MemEvent.alloc numLocks])
  else
    ({ g with nThreads := g.nThreads + 1 }, [])

/-- `_shadowtorpreload_cryptoTeardown` (lines 448-465): under the primary
lock, if `initialized` and the array pointer is non-null, decrement
`nThreads` (the decrement happens only under those two conjuncts, by C
short-circuit evaluation); if the decremented count is 0, free the array and
clear `initialized`. -/
def cryptoTeardown (g : PreloadGlobal) : PreloadGlobal × List MemEvent :=
  if g.initialized = true ∧ g.cryptoThreadLocks.isSome then
    let g1 : PreloadGlobal := { g with nThreads := g.nThreads - 1 }
    if g1.nThreads = 0 then
      ({ g1 with cryptoThreadLocks := none, initialized := false }, [MemEvent.free])
    else (g1, [])
  else (g, [])

/-- One operation on the lock bridge. -/
inductive BridgeOp where
  | setup (n : Int)
  | teardown
  deriving DecidableEq

/-- Dispatch one bridge operation. -/
def bridgeStep (g : PreloadGlobal) : BridgeOp → PreloadGlobal × List MemEvent
  | BridgeOp.setup n => cryptoSetup g n
  | BridgeOp.teardown => cryptoTeardown g

/-- Run a sequence of bridge operations, concatenating allocation events. -/
def runBridge (g : PreloadGlobal) : List BridgeOp → PreloadGlobal × List MemEvent
  | [] => (g, [])
  | op :: rest =>
      let s := bridgeStep g op
      let t := runBridge s.1 rest
      (t.1, s.2 ++ t.2)

/-- One call into the global crypto coordinator: a `crypto_global_init`
call with its three arguments, or a `crypto_global_cleanup` call. -/
inductive CoordOp where
  | init (useAccel : Int) (accelName accelDir : Option String)
  | cleanup
  deriving DecidableEq

/-- Whether an operation is a `crypto_global_init` call. -/
def isInitOp : CoordOp → Bool
  | CoordOp.init _ _ _ => true
  | CoordOp.cleanup => false

/-- Whether a delegate call belongs to the real init sequence
(`tor_ssl_global_init` or the real `crypto_global_init`). -/
def isInitDelegate : DelegateCall → Bool
  | DelegateCall.sslGlobalInit => true
  | DelegateCall.cryptoGlobalInit _ _ _ => true
  | _ => false

/-- Dispatch one coordinator call, returning its result, the new global
state and the delegate calls it made. -/
def coordStep (w : PreloadWorker) (g : PreloadGlobal) :
    CoordOp → Int × PreloadGlobal × List DelegateCall
  | CoordOp.init a an ad => crypto_global_init w g a an ad
  | CoordOp.cleanup => crypto_global_cleanup w g

/-- Run a sequence of coordinator calls, collecting for each call its result
and delegate-call list. -/
def runCoord (w : PreloadWorker) (g : PreloadGlobal) :
    List CoordOp → PreloadGlobal × List (Int × List DelegateCall)
  | [] => (g, [])
  | op :: rest =>
      let s := coordStep w g op
      let t := runCoord w s.2.1 rest
      (t.1, (s.1, s.2.2) :: t.2)

/-- The global state reached by the very first `cryptoSetup(k)` from the
initial state. -/
def afterFirstSetup (k : Int) : PreloadGlobal :=
  { initialGlobalState with
      numCryptoThreadLocks := k
      cryptoThreadLocks := some (List.replicate k.toNat RWLock.new)
      initialized := true
      nThreads := 1 }

/-- `g_str_has_suffix`: whether `s` ends with `suffix`. -/
def g_str_has_suffix (s suffix : String) : Bool :=
  List.isSuffixOf suffix.data s.data

/-- Rendering of the `printf` conversion `%03i` for the non-negative
counter values: the decimal digits, left-padded with zeros to width at
least 3. -/
def pad3 (n : Nat) : String :=
  let s := toString n
  if s.length < 3 then String.mk (List.replicate (3 - s.length) '0') ++ s else s

/-- `write_str_to_file` (lines 134-150): if `fname` ends in
"cached-consensus", build `fname ++ "." ++ pad3 counter`, post-increment the
calling thread's `consensusCounter`, and attempt the auxiliary
`g_file_set_contents` write (its success is the external outcome `auxOk`;
failure is only logged); then in all cases call the real
`write_str_to_file(fname, str, bin)` through the vtable (a `NULL` pointer,
i.e. `none`, would crash) and return its result.  The components are: the
returned result, the updated worker, the auxiliary write attempts
(path, content), and whether a warning was logged. -/
def write_str_to_file (w : PreloadWorker) (auxOk : Bool)
    (fname str : String) (bin : Int) :
    Option (Int × PreloadWorker × List (String × String) × Bool) :=
  match w.vtable.write_str_to_file with
  | none => none
  | some prim =>
      if g_str_has_suffix fname "cached-consensus" then
        let newPath := fname ++ "." ++ pad3 w.consensusCounter
        let w1 : PreloadWorker := { w with consensusCounter := w.consensusCounter + 1 }
        some (prim fname str bin, w1, [(newPath, str)], !auxOk)
      else
        some (prim fname str bin, w, [], false)

/-- The `PreloadWorker` as created by `g_new0` (all pointers `NULL`,
counter 0) before `shadowtorpreload_init` fills the vtable. -/
def freshPreloadWorker : PreloadWorker :=
  { vtable :=
      { spawn_func := none
        write_str_to_file := none
        crypto_global_init := none
        crypto_global_cleanup := none
        crypto_early_init := none
        crypto_seed_rng := none
        crypto_init_siphash_key := none
        tor_ssl_global_init := none }
    consensusCounter := 0 }

/-- `shadowtorpreload_init` (lines 81-101): look up the five mandatory
symbols, `g_assert`ing success of each in order (a failure is a fatal abort
whose diagnostic names the failed lookup); copy the three optional symbols
without asserting (`none` stays `none`); then run
`_shadowtorpreload_cryptoSetup(nLocks)`.  The error value carries the name
of the first mandatory symbol that failed to resolve. -/
def shadowtorpreload_init (m : GModule) (nLocks : Int) (g : PreloadGlobal) :
    Except String (PreloadWorker × PreloadGlobal) :=
  match m.spawn_func with
  | none => Except.error "spawn_func"
  | some _ =>
  match m.write_str_to_file with
  | none => Except.error "write_str_to_file"
  | some _ =>
  match m.crypto_global_init with
  | none => Except.error "crypto_global_init"
  | some _ =>
  match m.crypto_global_cleanup with
  | none => Except.error "crypto_global_cleanup"
  | some _ =>
  match m.tor_ssl_global_init with
  | none => Except.error "tor_ssl_global_init"
  | some _ =>
      Except.ok ({ vtable := m, consensusCounter := 0 }, (cryptoSetup g nLocks).1)

/-- The five mandatory symbol names of the resolution contract. -/
def mandatorySymbols : List String :=
  ["spawn_func", "write_str_to_file", "crypto_global_init",
    "crypto_global_cleanup", "tor_ssl_global_init"]

/-- Whether the named mandatory symbol resolves in the module. -/
def mandatoryResolved (m : GModule) (s : String) : Bool :=
  if s = "spawn_func" then m.spawn_func.isSome
  else if s = "write_str_to_file" then m.write_str_to_file.isSome
  else if s = "crypto_global_init" then m.crypto_global_init.isSome
  else if s = "crypto_global_cleanup" then m.crypto_global_cleanup.isSome
  else if s = "tor_ssl_global_init" then m.tor_ssl_global_init.isSome
  else true

/-- `spawn_func` (lines 114-132): the interposed spawn is entirely stubbed
out (its body is commented away); it returns -1 for every input and invokes
no delegate.  `func` and `data` stand for the opaque pointer arguments. -/
def spawn_func (_w : PreloadWorker) (_func _data : Nat) : Int × List DelegateCall :=
  (-1, [])

/-- The per-thread registry backing `g_private_get`/`g_private_set` of
`threadPreloadWorkerKey`: a map from thread identity to the address of that
thread's heap-allocated `PreloadWorker`, together with an allocator cursor.
Fresh allocations (`g_new0`) return addresses distinct from every live
worker's address. -/
structure WorkerRegistry where
  table : List (Nat × Nat)
  nextAddr : Nat
  deriving DecidableEq

/-- Lookup of a thread's worker address (`g_private_get`). -/
def findWorker : List (Nat × Nat) → Nat → Option Nat
  | [], _ => none
  | (k, v) :: rest, t => if k = t then some v else findWorker rest t

/-- `_shadowtorpreload_getWorker` (lines 58-67): return the calling
thread's worker, creating (allocating) it on first access by that thread. -/
def shadowtorpreload_getWorker (r : WorkerRegistry) (tid : Nat) :
    Nat × WorkerRegistry :=
  match findWorker r.table tid with
  | some addr => (addr, r)
  | none => (r.nextAddr, ⟨(tid, r.nextAddr) :: r.table, r.nextAddr + 1⟩)

/-- `_shadowtorpreload_getIDFunc` (lines 394-397): the per-thread ID handed
to OpenSSL is the address of the calling thread's worker. -/
def shadowtorpreload_getIDFunc (r : WorkerRegistry) (tid : Nat) : Nat :=
  (shadowtorpreload_getWorker r tid).1

/-- Run a sequence of `getWorker` calls by the given threads, returning the
final registry. -/
def runGetWorker (r : WorkerRegistry) : List Nat → WorkerRegistry
  | [] => r
  | t :: ts => runGetWorker (shadowtorpreload_getWorker r t).2 ts

/-- Well-formedness of the registry: every stored address is below the
allocator cursor, and distinct threads hold distinct addresses. -/
def RegistryWF (r : WorkerRegistry) : Prop :=
  (∀ p ∈ r.table, p.2 < r.nextAddr) ∧
    (∀ p ∈ r.table, ∀ q ∈ r.table, p.1 ≠ q.1 → p.2 ≠ q.2)

instance (r : WorkerRegistry) : Decidable (RegistryWF r) := by
  unfold RegistryWF; infer_instance

/-- The registry of a freshly started process: no workers yet. -/
def emptyRegistry : WorkerRegistry := ⟨[], 0⟩

/-- Well-formedness of the bridge state: the array is present exactly when
`initialized` is set, which holds exactly when `nThreads` is positive, and
the thread refcount is never negative. -/
def BridgeWF (g : PreloadGlobal) : Prop :=
  (g.cryptoThreadLocks.isSome = true ↔ g.initialized = true) ∧
    (g.initialized = true ↔ 0 < g.nThreads) ∧ 0 ≤ g.nThreads

instance (g : PreloadGlobal) : Decidable (BridgeWF g) := by
  unfold BridgeWF; infer_instance

/-- C3 (counterexample): with the array present (2 entries), invoking the
locking callback with the in-claim-range-violating index 5 does not trigger
any assertion: the result is an unchecked out-of-bounds access, not the
fatal `LogicError` the claim requires. -/
theorem locking_oob_index_not_asserted :
    cryptoLockingFunc twoLockState (CRYPTO_LOCK + CRYPTO_READ) 5 = LockResult.oob ∧
      LockResult.oob ≠ LockResult.assertFail := by
  constructor
  · rfl
  · decide

/-- C3 (amended): the array-absent precondition is enforced by assertion
(`initialized` unset, or a `NULL` array pointer, is a fatal assertion), and
under the preconditions (array present, `0 ≤ n <` length) acquire+read takes
the indexed lock shared, acquire+write takes it exclusively, and the release
variants release the corresponding hold; but an out-of-range index is not
asserted — it is an unchecked out-of-bounds access. -/
theorem locking_modes_and_preconditions (g : PreloadGlobal) (mode : Nat) (n : Int)
    (locks : List RWLock) :
    (g.initialized = false → cryptoLockingFunc g mode n = LockResult.assertFail) ∧
    (g.cryptoThreadLocks = none → cryptoLockingFunc g mode n = LockResult.assertFail) ∧
    (g.initialized = true → g.cryptoThreadLocks = some locks →
      ((0 ≤ n ∧ n.toNat < locks.length →
        cryptoLockingFunc g (CRYPTO_LOCK ||| CRYPTO_READ) n =
          LockResult.ok (locks.set n.toNat (readerLock (locks.getD n.toNat RWLock.new))) ∧
        cryptoLockingFunc g (CRYPTO_LOCK ||| CRYPTO_WRITE) n =
          LockResult.ok (locks.set n.toNat (writerLock (locks.getD n.toNat RWLock.new))) ∧
        cryptoLockingFunc g (CRYPTO_UNLOCK ||| CRYPTO_READ) n =
          LockResult.ok (locks.set n.toNat (readerUnlock (locks.getD n.toNat RWLock.new))) ∧
        cryptoLockingFunc g (CRYPTO_UNLOCK ||| CRYPTO_WRITE) n =
          LockResult.ok (locks.set n.toNat (writerUnlock (locks.getD n.toNat RWLock.new)))) ∧
      (¬ (0 ≤ n ∧ n.toNat < locks.length) →
        cryptoLockingFunc g (CRYPTO_LOCK ||| CRYPTO_READ) n = LockResult.oob))) := by
  refine ⟨fun h0 => ?_, fun hnone => ?_, fun hi hsome => ⟨fun hin => ?_, fun hout => ?_⟩⟩
  · simp [cryptoLockingFunc, h0]
  · cases hinit : g.initialized <;> simp [cryptoLockingFunc, hinit, hnone]
  · refine ⟨?_, ?_, ?_, ?_⟩ <;>
      simp +decide [cryptoLockingFunc, hi, hsome, CRYPTO_LOCK, CRYPTO_UNLOCK, CRYPTO_READ,
        CRYPTO_WRITE, applyLockOp, hin]
  · simp +decide [cryptoLockingFunc, hi, hsome, CRYPTO_LOCK, CRYPTO_UNLOCK, CRYPTO_READ,
      CRYPTO_WRITE, applyLockOp, hout]

/-- C3 (amended) witness: in the two-lock state, acquire+read on index 1
takes entry 1 shared, and index 5 is out of bounds. -/
theorem locking_modes_witness :
    cryptoLockingFunc twoLockState (CRYPTO_LOCK ||| CRYPTO_READ) 1 =
        LockResult.ok [RWLock.new, ⟨1, false⟩] ∧
      cryptoLockingFunc twoLockState (CRYPTO_LOCK ||| CRYPTO_READ) 5 = LockResult.oob := by
  have h := (locking_modes_and_preconditions twoLockState 0 1
    [RWLock.new, RWLock.new]).2.2 rfl rfl
  exact ⟨by simpa [readerLock, RWLock.new] using (h.1 (by decide)).1,
    by
      have h5 := (locking_modes_and_preconditions twoLockState 0 5
        [RWLock.new, RWLock.new]).2.2 rfl rfl
      exact h5.2 (by decide)⟩

theorem bridgeWF_initial : BridgeWF initialGlobalState := by decide

theorem bridgeStep_wf (g : PreloadGlobal) (op : BridgeOp) (h : BridgeWF g) :
    BridgeWF (bridgeStep g op).1 := by
  obtain ⟨h1, h2, h3⟩ := h
  cases op with
  | setup n =>
      cases hb : g.initialized with
      | false =>
          exact ⟨by simp [bridgeStep, cryptoSetup, hb],
            by simp [bridgeStep, cryptoSetup, hb]; omega,
            by simp [bridgeStep, cryptoSetup, hb]; omega⟩
      | true =>
          have hpos : 0 < g.nThreads := h2.mp hb
          exact ⟨by simp [bridgeStep, cryptoSetup, hb]; exact h1.mpr hb,
            by simp [bridgeStep, cryptoSetup, hb]; omega,
            by simp [bridgeStep, cryptoSetup, hb]; omega⟩
  | teardown =>
      by_cases hc1 : g.initialized = true
      · by_cases hc2 : g.cryptoThreadLocks.isSome = true
        · have hpos : 0 < g.nThreads := h2.mp hc1
          by_cases hz : g.nThreads - 1 = 0
          · exact ⟨by simp [bridgeStep, cryptoTeardown, hc1, hc2, hz],
              by simp [bridgeStep, cryptoTeardown, hc1, hc2, hz],
              by simp [bridgeStep, cryptoTeardown, hc1, hc2, hz]⟩
          · exact ⟨by simp [bridgeStep, cryptoTeardown, hc1, hc2, hz],
              by simp [bridgeStep, cryptoTeardown, hc1, hc2, hz]; omega,
              by simp [bridgeStep, cryptoTeardown, hc1, hc2, hz]; omega⟩
        · have hstep : bridgeStep g BridgeOp.teardown = (g, []) := by
            simp [bridgeStep, cryptoTeardown, hc2]
          rw [hstep]
          exact ⟨h1, h2, h3⟩
      · have hstep : bridgeStep g BridgeOp.teardown = (g, []) := by
          simp [bridgeStep, cryptoTeardown, hc1]
        rw [hstep]
        exact ⟨h1, h2, h3⟩

theorem runBridge_wf (ops : List BridgeOp) (g : PreloadGlobal) (h : BridgeWF g) :
    BridgeWF (runBridge g ops).1 := by
  induction ops generalizing g with
  | nil => exact h
  | cons op rest ih => exact ih (bridgeStep g op).1 (bridgeStep_wf g op h)

theorem runBridge_append (g : PreloadGlobal) (l1 l2 : List BridgeOp) :
    runBridge g (l1 ++ l2) =
      ((runBridge (runBridge g l1).1 l2).1,
        (runBridge g l1).2 ++ (runBridge (runBridge g l1).1 l2).2) := by
  induction l1 generalizing g with
  | nil => simp [runBridge]
  | cons op rest ih =>
      simp [runBridge, ih (bridgeStep g op).1, List.append_assoc]

theorem runBridge_setups_initialized (ks : List Int) (g : PreloadGlobal)
    (h : g.initialized = true) :
    (runBridge g (ks.map BridgeOp.setup)).1.initialized = true ∧
    (runBridge g (ks.map BridgeOp.setup)).1.cryptoThreadLocks = g.cryptoThreadLocks ∧
    (runBridge g (ks.map BridgeOp.setup)).1.numCryptoThreadLocks = g.numCryptoThreadLocks ∧
    (runBridge g (ks.map BridgeOp.setup)).1.nThreads = g.nThreads + ks.length ∧
    (runBridge g (ks.map BridgeOp.setup)).2 = [] := by
  induction ks generalizing g with
  | nil => simp [runBridge, h]
  | cons k rest ih =>
      have step : bridgeStep g (BridgeOp.setup k) =
          ({ g with nThreads := g.nThreads + 1 }, []) := by
        simp [bridgeStep, cryptoSetup, h]
      obtain ⟨i1, i2, i3, i4, i5⟩ := ih { g with nThreads := g.nThreads + 1 } (by simp [h])
      refine ⟨?_, ?_, ?_, ?_, ?_⟩ <;>
        simp [runBridge, step, i1, i2, i3, i4, i5] <;> omega

theorem runBridge_teardowns_live (m : Nat) (g : PreloadGlobal)
    (h : g.initialized = true) (hsome : g.cryptoThreadLocks.isSome = true)
    (hm : (m : Int) < g.nThreads) :
    (runBridge g (List.replicate m BridgeOp.teardown)).1.initialized = true ∧
    (runBridge g (List.replicate m BridgeOp.teardown)).1.cryptoThreadLocks =
      g.cryptoThreadLocks ∧
    (runBridge g (List.replicate m BridgeOp.teardown)).1.nThreads = g.nThreads - m ∧
    (runBridge g (List.replicate m BridgeOp.teardown)).2 = [] := by
  induction m generalizing g with
  | zero => simp [runBridge, h]
  | succ m ih =>
      have hz : ¬ (g.nThreads - 1 = 0) := by omega
      have step : bridgeStep g BridgeOp.teardown =
          ({ g with nThreads := g.nThreads - 1 }, []) := by
        simp [bridgeStep, cryptoTeardown, h, hsome, hz]
      obtain ⟨i1, i2, i3, i4⟩ := ih { g with nThreads := g.nThreads - 1 } (by simp [h])
        (by simpa using hsome) (by simp; omega)
      refine ⟨?_, ?_, ?_, ?_⟩ <;>
        simp [List.replicate_succ, runBridge, step, i1, i2, i3, i4] <;> omega

/-- C5: starting from the initial state, `N ≥ 1` setups with lock counts
`k :: ks` followed by `N` teardowns allocate the array exactly once — on the
first setup, with the first count `k` (the event trace after the setups alone
is `[alloc k]`) — and free it exactly once, never before the `N`-th teardown
(the trace is still `[alloc k]` after `N-1` teardowns, and `[alloc k, free]`
after all `N`); after every prefix the array is present iff `nThreads > 0`;
the final state has no array and `nThreads = 0`; and one further setup with
count `n'` re-allocates. -/
theorem setup_teardown_balanced (k : Int) (ks : List Int) :
    (runBridge initialGlobalState ((k :: ks).map BridgeOp.setup)).2 =
        [MemEvent.alloc k] ∧
    (runBridge initialGlobalState
        ((k :: ks).map BridgeOp.setup ++
          List.replicate ks.length BridgeOp.teardown)).2 = [MemEvent.alloc k] ∧
    (runBridge initialGlobalState
        ((k :: ks).map BridgeOp.setup ++
          List.replicate (ks.length + 1) BridgeOp.teardown)).2 =
        [MemEvent.alloc k, MemEvent.free] ∧
    (runBridge initialGlobalState
        ((k :: ks).map BridgeOp.setup ++
          List.replicate (ks.length + 1) BridgeOp.teardown)).1.cryptoThreadLocks =
        none ∧
    (runBridge initialGlobalState
        ((k :: ks).map BridgeOp.setup ++
          List.replicate (ks.length + 1) BridgeOp.teardown)).1.nThreads = 0 ∧
    (∀ ops : List BridgeOp,
      ((runBridge initialGlobalState ops).1.cryptoThreadLocks.isSome = true ↔
        0 < (runBridge initialGlobalState ops).1.nThreads)) ∧
    (∀ n' : Int,
      (runBridge initialGlobalState
          ((k :: ks).map BridgeOp.setup ++
            List.replicate (ks.length + 1) BridgeOp.teardown ++
            [BridgeOp.setup n'])).2 =
        [MemEvent.alloc k, MemEvent.free, MemEvent.alloc n']) := by
  have step1 : bridgeStep initialGlobalState (BridgeOp.setup k) =
      (afterFirstSetup k, [MemEvent.alloc k]) := rfl
  obtain ⟨hS1, hS2, hS3, hS4, hS5⟩ :=
    runBridge_setups_initialized ks (afterFirstSetup k) rfl
  have hS2' : (runBridge (afterFirstSetup k) (ks.map BridgeOp.setup)).1.cryptoThreadLocks =
      some (List.replicate k.toNat RWLock.new) := hS2.trans rfl
  have hS4' : (runBridge (afterFirstSetup k) (ks.map BridgeOp.setup)).1.nThreads =
      1 + ks.length := by
    rw [hS4]; rfl
  have hAfterSetups :
      runBridge initialGlobalState ((k :: ks).map BridgeOp.setup) =
        ((runBridge (afterFirstSetup k) (ks.map BridgeOp.setup)).1, [MemEvent.alloc k]) := by
    simp only [List.map_cons, runBridge, step1]
    simp [hS5]
  obtain ⟨hT1, hT2, hT3, hT4⟩ :=
    runBridge_teardowns_live ks.length
      (runBridge (afterFirstSetup k) (ks.map BridgeOp.setup)).1 hS1
      (by simp [hS2']) (by rw [hS4']; omega)
  have hT2' := hT2.trans hS2'
  have hT3' : (runBridge (runBridge (afterFirstSetup k) (ks.map BridgeOp.setup)).1
      (List.replicate ks.length BridgeOp.teardown)).1.nThreads = 1 := by
    rw [hT3, hS4']; omega
  have hrepl : List.replicate (ks.length + 1) BridgeOp.teardown =
      List.replicate ks.length BridgeOp.teardown ++ [BridgeOp.teardown] :=
    List.replicate_succ' ks.length BridgeOp.teardown
  refine ⟨?_, ?_, ?_, ?_, ?_, ?_, ?_⟩
  · rw [hAfterSetups]
  · rw [runBridge_append, hAfterSetups]
    simp [hT4]
  · rw [hrepl, ← List.append_assoc, runBridge_append, runBridge_append, hAfterSetups]
    simp [hT4, runBridge, bridgeStep, cryptoTeardown, hT1, hT2', hT3']
  · rw [hrepl, ← List.append_assoc, runBridge_append, runBridge_append, hAfterSetups]
    simp [hT4, runBridge, bridgeStep, cryptoTeardown, hT1, hT2', hT3']
  · rw [hrepl, ← List.append_assoc, runBridge_append, runBridge_append, hAfterSetups]
    simp [hT4, runBridge, bridgeStep, cryptoTeardown, hT1, hT2', hT3']
  · intro ops
    have hwf := runBridge_wf ops initialGlobalState bridgeWF_initial
    exact hwf.1.trans hwf.2.1
  · intro n'
    rw [runBridge_append, hrepl, ← List.append_assoc, runBridge_append,
      runBridge_append, hAfterSetups]
    simp [hT4, runBridge, bridgeStep, cryptoTeardown, cryptoSetup, hT1, hT2', hT3']

/-- C2 (counterexample): calling `crypto_global_cleanup` with
`nTorCryptoNodes = 0` is not a fatal assertion: the call returns normally
with result 0, drives the refcount to -1, and invokes no delegate.  The
source function contains no assertion at all. -/
theorem cleanup_below_zero_not_fatal :
    crypto_global_cleanup workerFull initialGlobalState =
      (0, { initialGlobalState with nTorCryptoNodes := -1 }, []) := by
  decide

/-- C2 (amended): whenever `nTorCryptoNodes ≤ 0` already, `globalCleanup`
decrements the refcount below zero and returns success (0) without invoking
the delegate and without any fatal assertion — the underflow is unchecked. -/
theorem cleanup_underflow_unchecked (w : PreloadWorker) (g : PreloadGlobal)
    (h : g.nTorCryptoNodes ≤ 0) :
    crypto_global_cleanup w g =
      (0, { g with nTorCryptoNodes := g.nTorCryptoNodes - 1 }, []) := by
  unfold crypto_global_cleanup
  have hne : ¬ (g.nTorCryptoNodes - 1 = 0) := by omega
  simp [hne]

/-- C2 (amended) witness at `nTorCryptoNodes = 0`. -/
theorem cleanup_underflow_unchecked_witness :
    crypto_global_cleanup workerFull initialGlobalState =
      (0, { initialGlobalState with nTorCryptoNodes := -1 }, []) :=
  cleanup_underflow_unchecked workerFull initialGlobalState (by decide)

theorem coordStep_latch (w : PreloadWorker) (g : PreloadGlobal) (op : CoordOp) :
    (coordStep w g op).2.1.sslInitializedGlobal =
      (g.sslInitializedGlobal || isInitOp op) := by
  cases op with
  | init a an ad =>
      cases hb : g.sslInitializedGlobal <;>
        cases hv : w.vtable.crypto_global_init <;>
          simp [coordStep, crypto_global_init, hb, hv, isInitOp]
  | cleanup =>
      by_cases hz : g.nTorCryptoNodes - 1 = 0
      · cases hv : w.vtable.crypto_global_cleanup <;>
          simp [coordStep, crypto_global_cleanup, hz, hv, isInitOp]
      · simp [coordStep, crypto_global_cleanup, hz, isInitOp]

theorem coordStep_nodes (w : PreloadWorker) (g : PreloadGlobal) (op : CoordOp) :
    (coordStep w g op).2.1.nTorCryptoNodes =
      g.nTorCryptoNodes + (if isInitOp op then 1 else -1) := by
  cases op with
  | init a an ad =>
      cases hb : g.sslInitializedGlobal <;>
        cases hv : w.vtable.crypto_global_init <;>
          simp [coordStep, crypto_global_init, hb, hv, isInitOp]
  | cleanup =>
      by_cases hz : g.nTorCryptoNodes - 1 = 0
      · cases hv : w.vtable.crypto_global_cleanup <;>
          simp [coordStep, crypto_global_cleanup, hz, hv, isInitOp] <;> omega
      · simp [coordStep, crypto_global_cleanup, hz, isInitOp]
        omega

theorem runCoord_length (w : PreloadWorker) (ops : List CoordOp) (g : PreloadGlobal) :
    (runCoord w g ops).2.length = ops.length := by
  induction ops generalizing g with
  | nil => simp [runCoord]
  | cons op rest ih => simp [runCoord, ih]

theorem runCoord_nodes (w : PreloadWorker) (ops : List CoordOp) (g : PreloadGlobal) :
    (runCoord w g ops).1.nTorCryptoNodes =
      g.nTorCryptoNodes +
        (ops.map fun op => if isInitOp op then (1 : Int) else -1).sum := by
  induction ops generalizing g with
  | nil => simp [runCoord]
  | cons op rest ih =>
      simp [runCoord, ih, coordStep_nodes]
      omega

theorem runCoord_init_out (w : PreloadWorker)
    (f : Int → Option String → Option String → Int)
    (hssl : w.vtable.tor_ssl_global_init = some ())
    (hf : w.vtable.crypto_global_init = some f)
    (ops : List CoordOp) (g : PreloadGlobal) (i : Nat) (a : Int)
    (an ad : Option String) (hi : i < ops.length)
    (hop : ops.get ⟨i, hi⟩ = CoordOp.init a an ad) :
    ((runCoord w g ops).2)[i]? =
      some (if (g.sslInitializedGlobal || (ops.take i).any isInitOp) then
              ((0 : Int), ([] : List DelegateCall))
            else (f a an ad,
              [DelegateCall.sslGlobalInit, DelegateCall.cryptoGlobalInit a an ad])) := by
  induction ops generalizing g i with
  | nil => exact absurd hi (by simp)
  | cons op rest ih =>
      cases i with
      | zero =>
          have hop0 : op = CoordOp.init a an ad := hop
          subst hop0
          cases hb : g.sslInitializedGlobal <;>
            simp [runCoord, coordStep, crypto_global_init, hb, hssl, hf]
      | succ i =>
          have hi' : i < rest.length := Nat.lt_of_succ_lt_succ hi
          have hop' : rest.get ⟨i, hi'⟩ = CoordOp.init a an ad := hop
          have hrec := ih (coordStep w g op).2.1 i hi' hop'
          rw [coordStep_latch] at hrec
          simp only [runCoord]
          simpa [List.any_cons, Bool.or_assoc] using hrec

theorem runCoord_cleanup_out (w : PreloadWorker) (ops : List CoordOp)
    (g : PreloadGlobal) (i : Nat) (hi : i < ops.length)
    (hop : ops.get ⟨i, hi⟩ = CoordOp.cleanup) :
    ∀ c ∈ (((runCoord w g ops).2)[i]?.getD (0, [])).2,
      c = DelegateCall.cryptoGlobalCleanup := by
  induction ops generalizing g i with
  | nil => exact absurd hi (by simp)
  | cons op rest ih =>
      cases i with
      | zero =>
          have hop0 : op = CoordOp.cleanup := hop
          subst hop0
          by_cases hz : g.nTorCryptoNodes - 1 = 0
          · cases hv : w.vtable.crypto_global_cleanup <;>
              simp [runCoord, coordStep, crypto_global_cleanup, hz, hv]
          · simp [runCoord, coordStep, crypto_global_cleanup, hz]
      | succ i =>
          have hi' : i < rest.length := Nat.lt_of_succ_lt_succ hi
          have hop' : rest.get ⟨i, hi'⟩ = CoordOp.cleanup := hop
          have hrec := ih (coordStep w g op).2.1 i hi' hop'
          simpa [runCoord] using hrec

/-- C1: over any sequence of `globalInit`/`globalCleanup` calls from the
initial state, with the mandatory `tor_ssl_global_init` and real
`crypto_global_init` delegates resolved: there is one recorded outcome per
call; a `globalInit` call with no earlier `globalInit` in the sequence
returns the real `crypto_global_init` delegate's result and performs exactly
the delegate sequence sslGlobalInit-then-cryptoGlobalInit, while every later
`globalInit` (even after a full cleanup cycle) returns 0 with no delegate
calls; cleanup calls never invoke an init delegate; and every `globalInit`
call increments `nTorCryptoNodes` by exactly 1. -/
theorem global_init_latched_once (w : PreloadWorker)
    (f : Int → Option String → Option String → Int)
    (hssl : w.vtable.tor_ssl_global_init = some ())
    (hf : w.vtable.crypto_global_init = some f)
    (ops : List CoordOp) :
    (runCoord w initialGlobalState ops).2.length = ops.length ∧
    (∀ i : Fin ops.length,
      match ops.get i with
      | CoordOp.init a an ad =>
          ((runCoord w initialGlobalState ops).2)[i.val]? =
            some (if (ops.take i.val).any isInitOp then
                    ((0 : Int), ([] : List DelegateCall))
                  else (f a an ad,
                    [DelegateCall.sslGlobalInit,
                      DelegateCall.cryptoGlobalInit a an ad]))
      | CoordOp.cleanup =>
          ∀ c ∈ (((runCoord w initialGlobalState ops).2)[i.val]?.getD (0, [])).2,
            c = DelegateCall.cryptoGlobalCleanup) ∧
    (∀ i : Fin ops.length, isInitOp (ops.get i) = true →
      (runCoord w initialGlobalState (ops.take (i.val + 1))).1.nTorCryptoNodes =
        (runCoord w initialGlobalState (ops.take i.val)).1.nTorCryptoNodes + 1) := by
  refine ⟨runCoord_length w ops initialGlobalState, ?_, ?_⟩
  · intro i
    cases hop : ops.get i with
    | init a an ad =>
        simp only [hop]
        have h := runCoord_init_out w f hssl hf ops initialGlobalState i.val a an ad
          i.isLt hop
        simpa [initialGlobalState] using h
    | cleanup =>
        simp only [hop]
        exact runCoord_cleanup_out w ops initialGlobalState i.val i.isLt hop
  · intro i hinit
    have ht : ops.take (i.val + 1) = ops.take i.val ++ [ops.get i] := by
      rw [List.take_succ]
      congr
      rw [List.getElem?_eq_getElem i.isLt]
      rfl
    have h1 := runCoord_nodes w (ops.take (i.val + 1)) initialGlobalState
    have h2 := runCoord_nodes w (ops.take i.val) initialGlobalState
    rw [ht] at h1
    rw [ht, h1, h2]
    simp only [List.get_eq_getElem] at hinit
    simp [hinit, add_assoc]

/-- C1 witness: init-cleanup-init; the first init returns the delegate's
result 7 having performed the init sequence, the second init returns 0 with
no delegate calls. -/
theorem global_init_latched_once_witness :
    ((runCoord workerFull initialGlobalState
        [CoordOp.init 0 none none, CoordOp.cleanup, CoordOp.init 1 none none]).2)[0]? =
      some ((7 : Int),
        [DelegateCall.sslGlobalInit, DelegateCall.cryptoGlobalInit 0 none none]) ∧
    ((runCoord workerFull initialGlobalState
        [CoordOp.init 0 none none, CoordOp.cleanup, CoordOp.init 1 none none]).2)[2]? =
      some ((0 : Int), []) := by
  have h := global_init_latched_once workerFull (fun _ _ _ => (7 : Int)) rfl rfl
    [CoordOp.init 0 none none, CoordOp.cleanup, CoordOp.init 1 none none]
  have h0 := h.2.1 ⟨0, by decide⟩
  have h2 := h.2.1 ⟨2, by decide⟩
  exact ⟨by simpa using h0, by simpa using h2⟩

/-- C6: with `nTorCryptoNodes ≥ 1` before the call, `globalCleanup`
decrements the refcount by exactly 1; exactly when the decrement reaches 0 it
invokes the `cryptoGlobalCleanup` delegate and returns its result, and
otherwise it returns 0 without invoking the delegate. -/
theorem cleanup_refcounted (w : PreloadWorker) (g : PreloadGlobal) (r : Int)
    (hcl : w.vtable.crypto_global_cleanup = some r)
    (_h1 : 1 ≤ g.nTorCryptoNodes) :
    (crypto_global_cleanup w g).2.1.nTorCryptoNodes = g.nTorCryptoNodes - 1 ∧
    (g.nTorCryptoNodes = 1 →
      crypto_global_cleanup w g =
        (r, { g with nTorCryptoNodes := 0 }, [DelegateCall.cryptoGlobalCleanup])) ∧
    (1 < g.nTorCryptoNodes →
      (crypto_global_cleanup w g).1 = 0 ∧ (crypto_global_cleanup w g).2.2 = []) := by
  unfold crypto_global_cleanup
  refine ⟨?_, ?_, ?_⟩
  · by_cases h0 : g.nTorCryptoNodes - 1 = 0 <;> simp [h0, hcl]
  · intro h1'
    simp [h1', hcl]
  · intro hgt
    have hne : ¬ (g.nTorCryptoNodes - 1 = 0) := by omega
    simp [hne]

/-- C4 (counterexample): with the early latch set, a worker whose
`crypto_seed_rng` is present and reports failure (-1) but whose
`crypto_early_init` symbol is absent: the call returns success (0) and
invokes neither optional delegate, although the claim requires the present
`seedRng` to be invoked and the result to be failure. -/
theorem early_reseed_skips_present_seed :
    crypto_early_init workerNoEarly latchedEarlyState =
        some (0, latchedEarlyState, []) ∧
      (workerNoEarly.vtable.crypto_seed_rng).isSome = true := by
  constructor
  · rfl
  · rfl

/-- C4 (amended): when the early latch is already set, the reseed branch is
gated solely on the presence of the `crypto_early_init` symbol: if that
symbol is absent the call is a no-op returning success regardless of the
other two optional symbols; if it is present the code unconditionally invokes
`seedRng(1)` and then `initSiphashKey` — crashing (no defined result) when
either of those is absent — and returns failure (-1) exactly when either
present call reports a negative result, else success (0). -/
theorem early_reseed_gated_on_early_symbol (w : PreloadWorker) (g : PreloadGlobal)
    (h : g.sslInitializedEarly = true) :
    (w.vtable.crypto_early_init = none →
      crypto_early_init w g = some (0, g, [])) ∧
    ((w.vtable.crypto_early_init).isSome = true →
      ((w.vtable.crypto_seed_rng = none ∨ w.vtable.crypto_init_siphash_key = none) →
        crypto_early_init w g = none) ∧
      (∀ sr : Int → Int, ∀ sk : Int,
        w.vtable.crypto_seed_rng = some sr →
        w.vtable.crypto_init_siphash_key = some sk →
        crypto_early_init w g =
          some (if sr 1 < 0 ∨ sk < 0 then -1 else 0, g,
            [DelegateCall.seedRng 1, DelegateCall.initSiphashKey]))) := by
  refine ⟨fun habs => ?_, fun hpres => ⟨fun habs2 => ?_, fun sr sk hsr hsk => ?_⟩⟩
  · unfold crypto_early_init
    simp [h, habs]
  · unfold crypto_early_init
    rcases Option.isSome_iff_exists.mp hpres with ⟨e, he⟩
    rcases habs2 with h2 | h2 <;> simp [h, he, h2] <;>
      cases w.vtable.crypto_seed_rng <;> rfl
  · unfold crypto_early_init
    rcases Option.isSome_iff_exists.mp hpres with ⟨e, he⟩
    simp [h, he, hsr, hsk]

/-- C4 (amended) witness: a fully resolved worker with the latch set runs
the reseed pair and returns success. -/
theorem early_reseed_gated_witness :
    crypto_early_init workerFull latchedEarlyState =
      some (0, latchedEarlyState,
        [DelegateCall.seedRng 1, DelegateCall.initSiphashKey]) := by
  have h := (early_reseed_gated_on_early_symbol workerFull latchedEarlyState rfl).2
    rfl |>.2 (fun _ => 0) 0 rfl rfl
  simpa using h

/-- C6 witness: at a state with refcount 2 the cleanup decrements to 1,
returns 0, and calls no delegate. -/
theorem cleanup_refcounted_witness :
    (crypto_global_cleanup workerFull
        { initialGlobalState with nTorCryptoNodes := 2 }).2.1.nTorCryptoNodes = 1 ∧
    ((crypto_global_cleanup workerFull
        { initialGlobalState with nTorCryptoNodes := 2 }).1 = 0 ∧
      (crypto_global_cleanup workerFull
        { initialGlobalState with nTorCryptoNodes := 2 }).2.2 = []) := by
  have h := cleanup_refcounted workerFull
    { initialGlobalState with nTorCryptoNodes := 2 } 9 rfl (by decide)
  exact ⟨by simpa using h.1, h.2.2 (by decide)⟩

/-- C7: on a path ending in "cached-consensus" (the canonical snapshot), a
worker whose primary `write_str_to_file` delegate is resolved first attempts
an auxiliary write of the same content to the path suffixed with the
zero-padded current counter, increments the counter by exactly 1, and —
whether or not the auxiliary write succeeds — the primary delegate runs and
its result is returned unchanged (aux failure only sets the warning flag).
Counter 3 yields suffix "003", and a fresh worker's counter starts at 0. -/
theorem consensus_side_channel (w : PreloadWorker)
    (prim : String → String → Int → Int)
    (hp : w.vtable.write_str_to_file = some prim)
    (fname str : String) (bin : Int)
    (hsuf : g_str_has_suffix fname "cached-consensus" = true) (auxOk : Bool) :
    write_str_to_file w auxOk fname str bin =
      some (prim fname str bin,
        { w with consensusCounter := w.consensusCounter + 1 },
        [(fname ++ "." ++ pad3 w.consensusCounter, str)], !auxOk) ∧
    pad3 3 = "003" ∧ freshPreloadWorker.consensusCounter = 0 := by
  refine ⟨?_, by decide, rfl⟩
  unfold write_str_to_file
  simp [hp, hsuf]

/-- C7 witness: counter 3 produces the ".003" auxiliary path; a failing
auxiliary write leaves the primary result 5 intact. -/
theorem consensus_side_channel_witness :
    write_str_to_file workerFull false "data/cached-consensus" "X" 1 =
      some (5, { workerFull with consensusCounter := 4 },
        [("data/cached-consensus.003", "X")], true) :=
  (consensus_side_channel workerFull (fun _ _ _ => 5) rfl "data/cached-consensus"
    "X" 1 (by decide) false).1

/-- C8: `shadowtorpreload_init` fails (fatally, with a diagnostic naming the
unresolved symbol) exactly when one of the five mandatory symbols does not
resolve; any named symbol in the error is a mandatory one that is indeed
unresolved in the module; and on success each optional symbol is stored
as-is, absent optional symbols remaining an explicit `none` without causing
an error. -/
theorem init_symbol_resolution (m : GModule) (nLocks : Int) (g : PreloadGlobal) :
    ((∃ s, shadowtorpreload_init m nLocks g = Except.error s) ↔
      ¬ (m.spawn_func.isSome = true ∧ m.write_str_to_file.isSome = true ∧
          m.crypto_global_init.isSome = true ∧ m.crypto_global_cleanup.isSome = true ∧
          m.tor_ssl_global_init.isSome = true)) ∧
    (∀ s, shadowtorpreload_init m nLocks g = Except.error s →
      s ∈ mandatorySymbols ∧ mandatoryResolved m s = false) ∧
    (∀ w g', shadowtorpreload_init m nLocks g = Except.ok (w, g') →
      w.vtable.crypto_early_init = m.crypto_early_init ∧
      w.vtable.crypto_seed_rng = m.crypto_seed_rng ∧
      w.vtable.crypto_init_siphash_key = m.crypto_init_siphash_key) := by
  rcases m with ⟨sf, wf, gi, gc, ei, sr, sk, si⟩
  cases sf <;> cases wf <;> cases gi <;> cases gc <;> cases si <;>
    simp [shadowtorpreload_init, mandatorySymbols, mandatoryResolved]

/-- C8 witness: a module missing only the mandatory `crypto_global_cleanup`
is rejected; the full module binds, with the optional symbols copied. -/
theorem init_symbol_resolution_witness :
    (∃ s, shadowtorpreload_init { vtableFull with crypto_global_cleanup := none } 16
        initialGlobalState = Except.error s) ∧
    shadowtorpreload_init vtableFull 16 initialGlobalState =
      Except.ok ({ vtable := vtableFull, consensusCounter := 0 }, afterFirstSetup 16) := by
  constructor
  · exact (init_symbol_resolution { vtableFull with crypto_global_cleanup := none } 16
      initialGlobalState).1.mpr (by simp [vtableFull])
  · rfl

/-- C10: the interposed `spawn_func` returns -1 on every input and invokes
no delegate, although for every worker produced by a successful
`shadowtorpreload_init` the spawn-replacement delegate is resolved. -/
theorem spawn_func_stub (w : PreloadWorker) (func data : Nat)
    (m : GModule) (nLocks : Int) (g g' : PreloadGlobal)
    (hok : shadowtorpreload_init m nLocks g = Except.ok (w, g')) :
    spawn_func w func data = (-1, []) ∧ w.vtable.spawn_func.isSome = true := by
  refine ⟨rfl, ?_⟩
  rcases m with ⟨sf, wf, gi, gc, ei, sr, sk, si⟩
  cases sf <;> cases wf <;> cases gi <;> cases gc <;> cases si <;>
    simp_all [shadowtorpreload_init]
  obtain ⟨hw, -⟩ := hok
  subst hw
  rfl

/-- C10 witness: a bound worker's spawn is stubbed although its delegate is
resolved. -/
theorem spawn_func_stub_witness :
    spawn_func { vtable := vtableFull, consensusCounter := 0 } 1 2 = (-1, []) ∧
    ({ vtable := vtableFull, consensusCounter := 0 } : PreloadWorker).vtable.spawn_func.isSome
      = true :=
  spawn_func_stub { vtable := vtableFull, consensusCounter := 0 } 1 2 vtableFull 16
    initialGlobalState (afterFirstSetup 16) rfl

/-- C5 witness: two setups (counts 2 then 3) allocate once with count 2. -/
theorem setup_teardown_balanced_witness :
    (runBridge initialGlobalState ([2, 3].map BridgeOp.setup)).2 = [MemEvent.alloc 2] :=
  (setup_teardown_balanced 2 [3]).1

theorem findWorker_mem (l : List (Nat × Nat)) (t a : Nat)
    (h : findWorker l t = some a) : (t, a) ∈ l := by
  induction l with
  | nil => exact absurd h (by simp [findWorker])
  | cons p rest ih =>
      obtain ⟨k, v⟩ := p
      by_cases hk : k = t
      · subst hk
        simp [findWorker] at h
        subst h
        exact List.mem_cons_self _ _
      · simp [findWorker, hk] at h
        exact List.mem_cons_of_mem _ (ih h)

theorem findWorker_persist (r : WorkerRegistry) (t a u : Nat)
    (h : findWorker r.table t = some a) :
    findWorker (shadowtorpreload_getWorker r u).2.table t = some a := by
  cases hfu : findWorker r.table u with
  | some b => simpa [shadowtorpreload_getWorker, hfu] using h
  | none =>
      have hne : u ≠ t := by
        intro he
        subst he
        rw [hfu] at h
        cases h
      simp [shadowtorpreload_getWorker, hfu, findWorker, hne]
      exact h

theorem getWorker_find_self (r : WorkerRegistry) (t : Nat) :
    findWorker (shadowtorpreload_getWorker r t).2.table t =
      some (shadowtorpreload_getWorker r t).1 := by
  cases hft : findWorker r.table t with
  | some a => simp [shadowtorpreload_getWorker, hft]
  | none => simp [shadowtorpreload_getWorker, hft, findWorker]

theorem runGetWorker_persist (ts : List Nat) (r : WorkerRegistry) (t a : Nat)
    (h : findWorker r.table t = some a) :
    findWorker (runGetWorker r ts).table t = some a := by
  induction ts generalizing r with
  | nil => exact h
  | cons u rest ih =>
      exact ih (shadowtorpreload_getWorker r u).2 (findWorker_persist r t a u h)

theorem getWorker_found (r : WorkerRegistry) (t a : Nat)
    (h : findWorker r.table t = some a) :
    shadowtorpreload_getWorker r t = (a, r) := by
  simp [shadowtorpreload_getWorker, h]

theorem getWorker_fresh (r : WorkerRegistry) (t : Nat)
    (h : findWorker r.table t = none) :
    shadowtorpreload_getWorker r t =
      (r.nextAddr, ⟨(t, r.nextAddr) :: r.table, r.nextAddr + 1⟩) := by
  simp [shadowtorpreload_getWorker, h]

theorem getWorker_wf (r : WorkerRegistry) (t : Nat) (h : RegistryWF r) :
    RegistryWF (shadowtorpreload_getWorker r t).2 := by
  obtain ⟨hb, hinj⟩ := h
  cases hft : findWorker r.table t with
  | some a => exact ⟨by simpa [shadowtorpreload_getWorker, hft] using hb,
      by simpa [shadowtorpreload_getWorker, hft] using hinj⟩
  | none =>
      constructor
      · intro p hp
        simp [shadowtorpreload_getWorker, hft] at hp ⊢
        rcases hp with rfl | hp
        · omega
        · have := hb p hp
          omega
      · intro p hp q hq hpq
        simp [shadowtorpreload_getWorker, hft] at hp hq ⊢
        rcases hp with rfl | hp <;> rcases hq with rfl | hq
        · exact absurd rfl hpq
        · have := hb q hq
          omega
        · have := hb p hp
          omega
        · exact hinj p hp q hq hpq

/-- C9: the thread-identification callback is stable — once thread `t` has
its worker, its ID is unchanged by any later sequence of worker accesses by
any threads — and injective across live threads: a different thread `u`
never receives `t`'s ID; and well-formedness of the registry is preserved,
so this holds at every reachable registry. -/
theorem id_callback_stable_injective (r : WorkerRegistry) (h : RegistryWF r)
    (t u : Nat) (hne : t ≠ u) (ts : List Nat) :
    shadowtorpreload_getIDFunc (runGetWorker (shadowtorpreload_getWorker r t).2 ts) t =
      (shadowtorpreload_getWorker r t).1 ∧
    (shadowtorpreload_getWorker (shadowtorpreload_getWorker r t).2 u).1 ≠
      (shadowtorpreload_getWorker r t).1 ∧
    RegistryWF (shadowtorpreload_getWorker r t).2 := by
  obtain ⟨hb, hinj⟩ := h
  refine ⟨?_, ?_, getWorker_wf r t ⟨hb, hinj⟩⟩
  · have hself := getWorker_find_self r t
    have hpersist := runGetWorker_persist ts (shadowtorpreload_getWorker r t).2 t
      (shadowtorpreload_getWorker r t).1 hself
    have hfound := getWorker_found
      (runGetWorker (shadowtorpreload_getWorker r t).2 ts) t
      (shadowtorpreload_getWorker r t).1 hpersist
    simp [shadowtorpreload_getIDFunc, hfound]
  · cases hft : findWorker r.table t with
    | some a =>
        rw [getWorker_found r t a hft]
        show (shadowtorpreload_getWorker r u).1 ≠ a
        cases hfu : findWorker r.table u with
        | some b =>
            rw [getWorker_found r u b hfu]
            have hma := findWorker_mem r.table t a hft
            have hmb := findWorker_mem r.table u b hfu
            simpa using hinj (u, b) hmb (t, a) hma (by simpa using (Ne.symm hne))
        | none =>
            rw [getWorker_fresh r u hfu]
            have hma := findWorker_mem r.table t a hft
            have hlt := hb (t, a) hma
            simp only [] at hlt
            simp
            omega
    | none =>
        rw [getWorker_fresh r t hft]
        show (shadowtorpreload_getWorker
            (WorkerRegistry.mk ((t, r.nextAddr) :: r.table) (r.nextAddr + 1)) u).1 ≠
          r.nextAddr
        have hfu1 : findWorker ((t, r.nextAddr) :: r.table) u =
            findWorker r.table u := by
          simp [findWorker, hne]
        cases hfu : findWorker r.table u with
        | some b =>
            have hr1 : findWorker
                (WorkerRegistry.mk ((t, r.nextAddr) :: r.table) (r.nextAddr + 1)).table u =
                some b := by
              simpa [hfu1] using hfu
            rw [getWorker_found _ u b hr1]
            have hmb := findWorker_mem r.table u b hfu
            have hlt := hb (u, b) hmb
            simp only [] at hlt
            simp
            omega
        | none =>
            have hr1 : findWorker
                (WorkerRegistry.mk ((t, r.nextAddr) :: r.table) (r.nextAddr + 1)).table u =
                none := by
              simpa [hfu1] using hfu
            rw [getWorker_fresh _ u hr1]
            simp

/-- C9 witness: from the empty registry, thread 7 receives ID 0, keeps it
across later accesses by threads 5, 7 and 9, and thread 5 gets a different
ID. -/
theorem id_callback_stable_injective_witness :
    shadowtorpreload_getIDFunc
        (runGetWorker (shadowtorpreload_getWorker emptyRegistry 7).2 [5, 7, 9]) 7 = 0 ∧
    (shadowtorpreload_getWorker (shadowtorpreload_getWorker emptyRegistry 7).2 5).1 ≠ 0 := by
  have h := id_callback_stable_injective emptyRegistry (by decide) 7 5 (by decide) [5, 7, 9]
  exact ⟨by simpa using h.1, by simpa using h.2.1⟩

end ShadowTorPreload
